import Mathlib

/-!
# cryptocmd: certificate store manager (`src/win32/src/CertificateStore.cpp`)

A shallow embedding of `CertificateStore` and of the part of the Windows
certificate, key-storage and registry interfaces that its methods drive.

* C++ exceptions become the `Except Exception` component of a result; the
  state reached when the exception leaves the method is returned next to it.
* Calls into the operating system whose outcome the program cannot predict
  (decoders, encoders, signing, PFX packing, failures of store mutations) are
  fields of `Backend`; every theorem quantifies over them or fixes them to
  concrete functions.
* Byte buffers are `List Nat`, `std::string` and `std::wstring` are `String`.
-/

set_option autoImplicit false

namespace CryptoCmd

/-! ## Constants of the Windows headers used by the source -/

/-- The OID string `szOID_BASIC_CONSTRAINTS2` of `wincrypt.h`. -/
def szOID_BASIC_CONSTRAINTS2 : String := "2.5.29.19"

/-- The provider name `MS_KEY_STORAGE_PROVIDER` of `ncrypt.h`. -/
def MS_KEY_STORAGE_PROVIDER : String := "Microsoft Software Key Storage Provider"

/-- The key specification `AT_SIGNATURE` of `wincrypt.h`. -/
def AT_SIGNATURE : Nat := 2

/-- The largest value of a `DWORD`. -/
def MAXDWORD : Nat := 2 ^ 32 - 1

/-- The conversion of an unsigned integer to `DWORD`, as the casts `(DWORD)x` and
`static_cast<DWORD>(x)` do it: the low 32 bits. -/
def toDWORD (x : Nat) : Nat := x % 2 ^ 32

/-- The status `RPC_S_OK`. -/
def RPC_S_OK : Nat := 0

/-- The status `RPC_S_UUID_LOCAL_ONLY`. -/
def RPC_S_UUID_LOCAL_ONLY : Nat := 1824

/-- The status `ERROR_SUCCESS`. -/
def ERROR_SUCCESS : Nat := 0

/-- The status `ERROR_FILE_NOT_FOUND`, returned when a registry value is absent. -/
def ERROR_FILE_NOT_FOUND : Nat := 2

/-- Flag `CRYPT_EXPORTABLE`. -/
def CRYPT_EXPORTABLE : Nat := 0x1

/-- Flag `CRYPT_USER_PROTECTED`. -/
def CRYPT_USER_PROTECTED : Nat := 0x2

/-- Flag `CRYPT_USER_KEYSET`. -/
def CRYPT_USER_KEYSET : Nat := 0x1000

/-- Flag `PKCS12_ALWAYS_CNG_KSP`. -/
def PKCS12_ALWAYS_CNG_KSP : Nat := 0x200

/-! ## Exceptions -/

/-- The exception `KSException(func, line, code)` of `KSException.h`: the name
of the throwing function, the source line and the operating-system error code. -/
structure KSException where
  func : String
  line : Nat
  code : Nat
  deriving DecidableEq, Repr

/-- The two exception types thrown by the source: `KSException` and
`std::overflow_error(what)`. -/
inductive Exception where
  | KSException (e : KSException)
  | overflow_error (what : String)
  deriving DecidableEq, Repr

deriving instance DecidableEq for Except

/-! ## Certificates and the certificate store -/

/-- A byte buffer. -/
abbrev Bytes := List Nat

/-- One entry of `CERT_INFO::rgExtension`: the OID string and the encoded value. -/
structure CERT_EXTENSION where
  pszObjId : String
  Value : Bytes
  deriving DecidableEq, Repr

/-- The fields of `CERT_INFO` that the source reads. -/
structure CERT_INFO where
  SerialNumber : Bytes
  Issuer : Bytes
  SubjectPublicKeyInfo : Bytes
  rgExtension : List CERT_EXTENSION
  deriving DecidableEq, Repr

/-- The structure `CRYPT_KEY_PROV_INFO` as the source fills it (`rgProvParam` is
always `nullptr`). -/
structure CRYPT_KEY_PROV_INFO where
  pwszContainerName : String
  pwszProvName : String
  dwProvType : Nat
  dwFlags : Nat
  cProvParam : Nat
  dwKeySpec : Nat
  deriving DecidableEq, Repr

/-- A certificate context: the encoded certificate, its decoded information and
the two context properties that the source sets
(`CERT_KEY_PROV_INFO_PROP_ID` and `CERT_NCRYPT_KEY_HANDLE_PROP_ID`). -/
structure CERT_CONTEXT where
  pbCertEncoded : Bytes
  pCertInfo : CERT_INFO
  keyProvInfo : Option CRYPT_KEY_PROV_INFO
  ncryptKeyHandle : Option Nat
  deriving DecidableEq, Repr

/-- The result of decoding a basic-constraints extension
(`CERT_BASIC_CONSTRAINTS2_INFO`). -/
structure CERT_BASIC_CONSTRAINTS2_INFO where
  fCA : Bool
  fPathLenConstraint : Bool
  dwPathLenConstraint : Nat
  deriving DecidableEq, Repr

/-- The add dispositions that the source passes to the store. -/
inductive Disposition where
  | CERT_STORE_ADD_USE_EXISTING
  | CERT_STORE_ADD_REPLACE_EXISTING
  | CERT_STORE_ADD_ALWAYS
  deriving DecidableEq, Repr

/-- The identity under which the store matches certificates: issuer and serial
number. -/
def sameIdentity (a b : CERT_CONTEXT) : Bool :=
  a.pCertInfo.Issuer == b.pCertInfo.Issuer &&
    a.pCertInfo.SerialNumber == b.pCertInfo.SerialNumber

/-- The effect of a successful add on the contents of a store, by disposition, as
the Windows documentation gives it: `ADD_ALWAYS` makes no check and always adds a
new entry; `ADD_REPLACE_EXISTING` deletes the matching entry and adds the new
one; `ADD_USE_EXISTING` keeps a matching entry and adds nothing. -/
def addToStore (d : Disposition) (store : List CERT_CONTEXT) (c : CERT_CONTEXT) :
    List CERT_CONTEXT :=
  match d with
  | .CERT_STORE_ADD_ALWAYS => store ++ [c]
  | .CERT_STORE_ADD_REPLACE_EXISTING => store.filter (fun e => !sameIdentity e c) ++ [c]
  | .CERT_STORE_ADD_USE_EXISTING =>
      if store.any (fun e => sameIdentity e c) then store else store ++ [c]

/-! ## Key pair provider -/

/-- A key pair of the provider: its name, its handle (`NCRYPT_KEY_HANDLE`, a
pointer-sized integer) and its public-key information. -/
structure KeyPair where
  name : String
  handle : Nat
  publicKeyInfo : Bytes
  bitLength : Nat
  pinProtected : Bool
  deriving DecidableEq, Repr

/-- Modelled from the spec: the class `KeyStore` (the Key Pair Provider), whose
source is not part of the files at hand. It holds the provider name it was
constructed with and the key pairs of the backing key store. -/
structure KeyStore where
  provider : String
  keys : List KeyPair
  deriving DecidableEq, Repr

/-- Modelled from the spec: `KeyStore::getKeyPair(publicKeyInfo)`, which returns
the key pair whose public key matches, or `nullptr` when there is none. -/
def KeyStore.getKeyPair (ks : KeyStore) (publicKeyInfo : Bytes) : Option KeyPair :=
  ks.keys.find? (fun kp => kp.publicKeyInfo == publicKeyInfo)

/-- Modelled from the spec: `KeyStore::deleteKeyPair(name)`, which deletes the
key pair of that name from the provider. -/
def KeyStore.deleteKeyPair (ks : KeyStore) (name : String) : KeyStore :=
  { ks with keys := ks.keys.filter (fun kp => kp.name != name) }

/-! ## The operating-system backend -/

/-- The request structure `CERT_REQUEST_INFO` handed to the signing call. -/
structure CERT_REQUEST_INFO where
  dwVersion : Nat
  Subject : Bytes
  SubjectPublicKeyInfo : Bytes
  cAttribute : Nat
  deriving DecidableEq, Repr

/-- Outcomes of the calls into the operating system. `none` or an `error` is a
failed call; `GetLastError` is the code the source reads after a failure. -/
structure Backend where
  /-- The value of `GetLastError()` after a failed call. -/
  GetLastError : Nat
  /-- The status that `UuidCreate` returns. -/
  UuidCreate : Nat
  /-- The outcome of `UuidToStringW(&uuid, &strUuid)`: `ok s` when it returns
  `RPC_S_OK` and has set `strUuid` to the string `s`; `error status` when it
  returns another status and has left the pointer `strUuid` as it was, never
  set. -/
  UuidToStringW : Except Nat String
  /-- Modelled from the spec: the key generation behind
  `KeyStore::generateKeyPair(id, bitLength, forcePinProtection)`; it yields the
  handle and the public-key information of the new key pair, or throws. -/
  generateKey : String → Nat → Bool → Except KSException (Nat × Bytes)
  /-- Modelled from the spec: the constructor `X509Name(name, useUtf8Mode)`
  followed by `getEncodedBlob()`; it throws when the name cannot be encoded. -/
  X509Name : String → Bool → Except KSException Bytes
  /-- The call `CryptSignAndEncodeCertificate` with a null output buffer: the size. -/
  signAndEncodeSize : Nat → CERT_REQUEST_INFO → Option Nat
  /-- The call `CryptSignAndEncodeCertificate` with an output buffer: the signed request. -/
  signAndEncode : Nat → CERT_REQUEST_INFO → Option Bytes
  /-- The call `CryptBinaryToStringA(..., CRYPT_STRING_BASE64REQUESTHEADER, nullptr, ...)`. -/
  binaryToBase64RequestHeaderSize : Bytes → Option Nat
  /-- The call `CryptBinaryToStringA(..., CRYPT_STRING_BASE64REQUESTHEADER, buffer, ...)`. -/
  binaryToBase64RequestHeader : Bytes → String
  /-- The call `CryptStringToBinaryA(..., CRYPT_STRING_BASE64HEADER, ...)`. -/
  base64HeaderToBinary : String → Option Bytes
  /-- The decoding of an encoded certificate inside
  `CertAddEncodedCertificateToStore`; `none` makes that call fail. -/
  decodeCertificate : Bytes → Option CERT_INFO
  /-- Whether `CertSetCertificateContextProperty(ctx, CERT_KEY_PROV_INFO_PROP_ID, ...)`
  succeeds. -/
  setKeyProvInfoOk : CERT_CONTEXT → CRYPT_KEY_PROV_INFO → Bool
  /-- Whether `CertSetCertificateContextProperty(ctx, CERT_NCRYPT_KEY_HANDLE_PROP_ID, ...)`
  succeeds. -/
  setKeyHandleOk : CERT_CONTEXT → Nat → Bool
  /-- The memory behind the `DWORD` variable `keyHandle` of `importCertificate`,
  whose address is passed where the property `CERT_NCRYPT_KEY_HANDLE_PROP_ID`
  takes the address of an `NCRYPT_KEY_HANDLE`: `none` on a build in which
  `NCRYPT_KEY_HANDLE` has 4 bytes, so that the call reads the `DWORD` and nothing
  else; on a build in which it has 8 bytes, the 4 bytes that lie behind the
  variable, which the call reads as the high half of the handle. -/
  bytesBehindKeyHandle : Option Nat
  /-- The call `CryptStringToBinaryA(..., CRYPT_STRING_HEX, ...)`. -/
  hexToBinary : String → Option Bytes
  /-- Whether `CertOpenStore(CERT_STORE_PROV_MEMORY, ...)` succeeds. -/
  openMemoryStoreOk : Bool
  /-- Whether `CertAddCertificateContextToStore` succeeds, given the contents of
  the target store and the certificate. -/
  addContextOk : List CERT_CONTEXT → CERT_CONTEXT → Bool
  /-- The call `PFXExportCertStore` with a null buffer: the size of the bundle. -/
  pfxExportSize : List CERT_CONTEXT → String → Option Nat
  /-- The call `PFXExportCertStore` with a buffer: the bundle. -/
  pfxExportData : List CERT_CONTEXT → String → Option Bytes
  /-- The call `CryptBinaryToStringA(..., CRYPT_STRING_BASE64, nullptr, ...)`. -/
  binaryToBase64Size : Bytes → Option Nat
  /-- The call `CryptBinaryToStringA(..., CRYPT_STRING_BASE64, buffer, ...)`. -/
  binaryToBase64 : Bytes → String
  /-- The call `CryptStringToBinaryA(..., CRYPT_STRING_BASE64_ANY, ...)`. -/
  base64AnyToBinary : String → Option Bytes
  /-- The call `PFXImportCertStore(blob, password, flags)`: the certificates of the
  transient store in enumeration order, or `none` when the call returns 0. -/
  PFXImportCertStore : Bytes → String → Nat → Option (List CERT_CONTEXT)
  /-- The call `CryptDecodeObject(..., szOID_BASIC_CONSTRAINTS2, value, ...)`; `none` is a
  failed decoding, which leaves the output structure as it was. -/
  decodeBasicConstraints2 : Bytes → Option CERT_BASIC_CONSTRAINTS2_INFO

/-! ## The manager -/

/-- The state of a `CertificateStore` object together with the state of the
operating system it acts on: the contents of the system store `MY`, whether
`storeHandle` is still open, the key pair provider, `lastKeyId`, and the handles
of the transient (memory) stores currently open. -/
structure CertificateStore where
  store : List CERT_CONTEXT
  storeHandleOpen : Bool
  keyStore : KeyStore
  lastKeyId : String
  memoryStores : List Nat
  deriving DecidableEq, Repr

/-- The call `CertCloseStore(storeHandle, 0)`. -/
def CertificateStore.closeStoreHandle (m : CertificateStore) : CertificateStore :=
  { m with storeHandleOpen := false }

/-- A handle that no open transient store has. -/
def freshHandle (open_ : List Nat) : Nat := open_.foldl max 0 + 1

/-- A successful `CertOpenStore(CERT_STORE_PROV_MEMORY, ...)` or `PFXImportCertStore`:
a new transient store is open. -/
def CertificateStore.openMemoryStore (m : CertificateStore) : Nat × CertificateStore :=
  (freshHandle m.memoryStores, { m with memoryStores := freshHandle m.memoryStores :: m.memoryStores })

/-- The call `CertCloseStore(pfxStore, 0)` on a transient store. -/
def CertificateStore.closeMemoryStore (m : CertificateStore) (h : Nat) : CertificateStore :=
  { m with memoryStores := m.memoryStores.erase h }

/-! ## `isCACertificate` -/

/-- The C function `strncmp(a, b, n)` on strings without embedded NUL: the
difference of the first pair of differing characters among the first `n`, where
the end of a string counts as the character 0. -/
def strncmp : List Char → List Char → Nat → Int
  | _, _, 0 => 0
  | [], [], _ + 1 => 0
  | [], b :: _, _ + 1 => 0 - (b.toNat : Int)
  | a :: _, [], _ + 1 => (a.toNat : Int)
  | a :: as, b :: bs, n + 1 =>
      if a = b then strncmp as bs n else (a.toNat : Int) - (b.toNat : Int)

/-- The loop of `isCACertificate` over the extensions from index `i` on. -/
def isCACertificateLoop (B : Backend) : List CERT_EXTENSION → Bool
  | [] => false
  | ext :: rest =>
      if strncmp ext.pszObjId.data szOID_BASIC_CONSTRAINTS2.data
          szOID_BASIC_CONSTRAINTS2.length = 0 then
        -- info = { 0 }; CryptDecodeObject(...); return (info.fCA == TRUE);
        let info : CERT_BASIC_CONSTRAINTS2_INFO :=
          (B.decodeBasicConstraints2 ext.Value).getD ⟨false, false, 0⟩
        info.fCA
      else isCACertificateLoop B rest

/-- The method `CertificateStore::isCACertificate`. -/
def isCACertificate (B : Backend) (certificateCtx : CERT_CONTEXT) : Bool :=
  isCACertificateLoop B certificateCtx.pCertInfo.rgExtension

/-! ## `pfxImport` -/

/-- The `while` loop of `pfxImport` over the certificates that
`CertEnumCertificatesInStore` yields: a CA certificate is skipped, any other is
added to `storeHandle` with `CERT_STORE_ADD_REPLACE_EXISTING`; a failed add
closes the transient store and throws. -/
def pfxImportLoop (B : Backend) (pfxStore : Nat) :
    List CERT_CONTEXT → CertificateStore → Except Exception Unit × CertificateStore
  | [], m => (.ok (), m)
  | certificateCtx :: rest, m =>
      if isCACertificate B certificateCtx then pfxImportLoop B pfxStore rest m
      else if !B.addContextOk m.store certificateCtx then
        (.error (.KSException ⟨"pfxImport", 362, B.GetLastError⟩), m.closeMemoryStore pfxStore)
      else
        pfxImportLoop B pfxStore rest
          { m with store := addToStore .CERT_STORE_ADD_REPLACE_EXISTING m.store certificateCtx }

/-- The flags `dwFlags` that `pfxImport` passes to `PFXImportCertStore`. -/
def pfxImportFlags (forcePINPasswordProtection : Bool) : Nat :=
  let dwFlags := CRYPT_EXPORTABLE ||| CRYPT_USER_KEYSET ||| PKCS12_ALWAYS_CNG_KSP
  if forcePINPasswordProtection then dwFlags ||| CRYPT_USER_PROTECTED else dwFlags

/-- The method `CertificateStore::pfxImport`. -/
def pfxImport (B : Backend) (m : CertificateStore) (pfxInBase64 : String) (password : String)
    (forcePINPasswordProtection : Bool) : Except Exception Unit × CertificateStore :=
  match B.base64AnyToBinary pfxInBase64 with
  | none => (.error (.KSException ⟨"pfxImport", 328, B.GetLastError⟩), m)
  | some cryptDataBlob =>
    match B.PFXImportCertStore cryptDataBlob password (pfxImportFlags forcePINPasswordProtection) with
    | none => (.error (.KSException ⟨"pfxImport", 350, B.GetLastError⟩), m)
    | some bundle =>
      let (pfxStore, m1) := m.openMemoryStore
      match pfxImportLoop B pfxStore bundle m1 with
      | (.error e, m2) => (.error e, m2)
      | (.ok (), m2) => (.ok (), m2.closeMemoryStore pfxStore)

/-! ## `importCertificate` -/

/-- The value that `CertSetCertificateContextProperty(certContext,
CERT_NCRYPT_KEY_HANDLE_PROP_ID, 0, &keyHandle)` reads at the address of the
`DWORD` variable `keyHandle` as an `NCRYPT_KEY_HANDLE`: the `DWORD` where the
handle type has 4 bytes, the `DWORD` as low half and the 4 bytes behind it as
high half where the handle type has 8 bytes. -/
def readKeyHandle (B : Backend) (keyHandle : Nat) : Nat :=
  match B.bytesBehindKeyHandle with
  | none => keyHandle
  | some behind => keyHandle + 2 ^ 32 * (behind % 2 ^ 32)

/-- The effect of `CertSetCertificateContextProperty` on the store entry that the
context `certContext` refers to, the entry at position `idx`. -/
def setContextProperty (store : List CERT_CONTEXT) (idx : Nat)
    (f : CERT_CONTEXT → CERT_CONTEXT) : List CERT_CONTEXT :=
  match store[idx]? with
  | some c => store.set idx (f c)
  | none => store

/-- The method `CertificateStore::importCertificate`. Each character of the
`std::string` is one byte. The encoded certificate is added with
`CERT_STORE_ADD_ALWAYS`; the context `certContext` that the add returns is the new
entry, at the end of the store. -/
def importCertificate (B : Backend) (m : CertificateStore) (pemCertificate : String) :
    Except Exception Unit × CertificateStore :=
  if pemCertificate.length > MAXDWORD then
    (.error (.overflow_error "DWORD overflow"), m)
  else
    match B.base64HeaderToBinary pemCertificate with
    | none => (.error (.KSException ⟨"importCertificate", 70, B.GetLastError⟩), m)
    | some cert =>
      match B.decodeCertificate cert with
      | none =>
        (.error (.KSException ⟨"importCertificate", 90, B.GetLastError⟩), m.closeStoreHandle)
      | some info =>
        let certContext : CERT_CONTEXT := ⟨cert, info, none, none⟩
        let idx := m.store.length
        let m1 := { m with store := addToStore .CERT_STORE_ADD_ALWAYS m.store certContext }
        match m1.keyStore.getKeyPair info.SubjectPublicKeyInfo with
        | none => (.ok (), m1)
        | some keyPair =>
          let cryptKeyProvInfo : CRYPT_KEY_PROV_INFO :=
            ⟨keyPair.name, MS_KEY_STORAGE_PROVIDER, 0, 0, 0, AT_SIGNATURE⟩
          if !B.setKeyProvInfoOk certContext cryptKeyProvInfo then
            (.error (.KSException ⟨"importCertificate", 108, B.GetLastError⟩),
              m1.closeStoreHandle)
          else
            let store2 := setContextProperty m1.store idx
              (fun c => { c with keyProvInfo := some cryptKeyProvInfo })
            let m2 := { m1 with store := store2 }
            -- DWORD keyHandle = (DWORD)keyPair->getHandle();
            let keyHandle := toDWORD keyPair.handle
            if !B.setKeyHandleOk certContext keyHandle then
              (.error (.KSException ⟨"importCertificate", 115, B.GetLastError⟩), m2)
            else
              let store3 := setContextProperty m2.store idx
                (fun c => { c with ncryptKeyHandle := some (readKeyHandle B keyHandle) })
              (.ok (), { m2 with store := store3 })

/-! ## `createCertificateRequest` -/

/-- Modelled from the spec: `KeyStore::generateKeyPair(id, bitLength,
forcePinProtection)`, which creates a key pair named `id` in the provider and
returns it, or throws. -/
def KeyStore.generateKeyPair (B : Backend) (ks : KeyStore) (id : String) (bitLength : Nat)
    (forcePinProtection : Bool) : Except KSException (KeyPair × KeyStore) :=
  match B.generateKey id bitLength forcePinProtection with
  | .error e => .error e
  | .ok (handle, publicKeyInfo) =>
    let keyPair : KeyPair := ⟨id, handle, publicKeyInfo, bitLength, forcePinProtection⟩
    .ok (keyPair, { ks with keys := ks.keys ++ [keyPair] })

/-- The `try` block of `createCertificateRequestFromCNG`. -/
def createCertificateRequestFromCNGTry (B : Backend) (subjectName : String)
    (keyPair : KeyPair) : Except KSException String :=
  match B.X509Name subjectName true with
  | .error e => .error e
  | .ok subject =>
    let CertReqInfo : CERT_REQUEST_INFO := ⟨0, subject, keyPair.publicKeyInfo, 0⟩
    match B.signAndEncodeSize keyPair.handle CertReqInfo with
    | none => .error ⟨"createCertificateRequestFromCNG", 148, B.GetLastError⟩
    | some _ =>
      match B.signAndEncode keyPair.handle CertReqInfo with
      | none => .error ⟨"createCertificateRequestFromCNG", 160, B.GetLastError⟩
      | some certSignReq =>
        match B.binaryToBase64RequestHeaderSize certSignReq with
        | none => .error ⟨"createCertificateRequestFromCNG", 168, B.GetLastError⟩
        | some _ => .ok (B.binaryToBase64RequestHeader certSignReq)

/-- The method `CertificateStore::createCertificateRequestFromCNG`: the `try`
block, and the handler `catch (KSException &e)` that deletes the key pair and
throws again. -/
def createCertificateRequestFromCNG (B : Backend) (m : CertificateStore)
    (subjectName : String) (keyPair : KeyPair) : Except Exception String × CertificateStore :=
  match createCertificateRequestFromCNGTry B subjectName keyPair with
  | .ok request => (.ok request, m)
  | .error e =>
    (.error (.KSException e), { m with keyStore := m.keyStore.deleteKeyPair keyPair.name })

/-- The part of `createCertificateRequest` from line 45 on, where `strUuid`
points to the string `strUuid`: the key pair is generated under that name,
`lastKeyId` is set and the request is made. -/
def createCertificateRequestWithUuid (B : Backend) (m : CertificateStore)
    (subjectName : String) (bitLength : Nat) (forcePINPasswordProtection : Bool)
    (strUuid : String) : Except Exception String × CertificateStore :=
  -- std::wstring stringUuid(reinterpret_cast<const wchar_t *const>(strUuid));
  let stringUuid := strUuid
  match m.keyStore.generateKeyPair B stringUuid bitLength forcePINPasswordProtection with
  | .error e => (.error (.KSException e), m)
  | .ok (keyPair, keyStore) =>
    let m1 := { m with keyStore := keyStore, lastKeyId := stringUuid }
    createCertificateRequestFromCNG B m1 subjectName keyPair

/-- The method `CertificateStore::createCertificateRequest`. The two
`KSException(...)` expressions after `UuidCreate` and `UuidToStringW` construct a
temporary and have no `throw`: they are the discarded values below. After a
`UuidToStringW` that failed, line 45 reads the pointer `strUuid`, which was never
set: the behaviour of the method is undefined from there on, and the result is
`none`. -/
def createCertificateRequest (B : Backend) (m : CertificateStore) (subjectName : String)
    (bitLength : Nat) (forcePINPasswordProtection : Bool) :
    Option (Except Exception String × CertificateStore) :=
  let status := B.UuidCreate
  let _discarded1 : Option KSException :=
    if status ≠ RPC_S_OK ∧ status ≠ RPC_S_UUID_LOCAL_ONLY then
      some ⟨"createCertificateRequest", 38, status⟩ else none
  match B.UuidToStringW with
  | .error status =>
    let _discarded2 : Option KSException :=
      if status ≠ RPC_S_OK then some ⟨"createCertificateRequest", 43, status⟩ else none
    none
  | .ok strUuid =>
    some (createCertificateRequestWithUuid B m subjectName bitLength
      forcePINPasswordProtection strUuid)

/-! ## `pfxExport` -/

/-- The test `str.rfind(pat, 0) == 0` of `std::string`: `pat` occurs at position 0. -/
def rfindAtZero (str pat : String) : Bool :=
  pat.data.isPrefixOf str.data

/-- The value of the local variable `tmpSerial` of `pfxExport` when it is handed
to the hex decoder. -/
def tmpSerial (serial : String) : String :=
  if rfindAtZero serial "0x" || rfindAtZero serial "0X" then
    -- tmpSerial.erase(0,2);
    let erased : String := ⟨serial.data.drop 2⟩
    -- if (tmpSerial.size() % 2) tmpSerial.insert(0,1,'0');
    if erased.length % 2 ≠ 0 then ⟨'0' :: erased.data⟩ else erased
  else serial

/-- The loop `reversedSerNum[serialNumberLg - 1 - i] = serialNumber[i]` of
`pfxExport`, run on a zero-initialised vector of the same length. -/
def reversedSerNum (serialNumber : Bytes) : Bytes :=
  let serialNumberLg := serialNumber.length
  (List.range serialNumberLg).foldl
    (fun acc i => acc.set (serialNumberLg - 1 - i) (serialNumber.getD i 0))
    (List.replicate serialNumberLg 0)

/-- The call `CertGetSubjectCertificateFromStore`: the first certificate of the
store with the given issuer and serial number. -/
def CertGetSubjectCertificateFromStore (store : List CERT_CONTEXT) (issuer serial : Bytes) :
    Option CERT_CONTEXT :=
  store.find? (fun c => c.pCertInfo.Issuer == issuer && c.pCertInfo.SerialNumber == serial)

/-- The lookup of `pfxExport`: first with the name encoded by `X509Name(issuer)`,
then with `X509Name(issuer, false)`. -/
def pfxExportLookup (B : Backend) (store : List CERT_CONTEXT) (issuer : String)
    (serial : Bytes) : Except Exception CERT_CONTEXT :=
  match B.X509Name issuer true with
  | .error e => .error (.KSException e)
  | .ok issuerName =>
    match CertGetSubjectCertificateFromStore store issuerName serial with
    | some certificateCtx => .ok certificateCtx
    | none =>
      match B.X509Name issuer false with
      | .error e => .error (.KSException e)
      | .ok issuerName =>
        match CertGetSubjectCertificateFromStore store issuerName serial with
        | some certificateCtx => .ok certificateCtx
        | none => .error (.KSException ⟨"pfxExport", 241, B.GetLastError⟩)

/-- The part of `pfxExport` from `CertOpenStore(CERT_STORE_PROV_MEMORY, ...)` to
the end. -/
def pfxExportStage (B : Backend) (m : CertificateStore) (certificateCtx : CERT_CONTEXT)
    (password : String) : Except Exception String × CertificateStore :=
  if !B.openMemoryStoreOk then
    (.error (.KSException ⟨"pfxExport", 251, B.GetLastError⟩), m)
  else
    let (pfxStore, m1) := m.openMemoryStore
    if !B.addContextOk [] certificateCtx then
      (.error (.KSException ⟨"pfxExport", 258, B.GetLastError⟩), m1.closeMemoryStore pfxStore)
    else
      let pfxContents := addToStore .CERT_STORE_ADD_USE_EXISTING [] certificateCtx
      match B.pfxExportSize pfxContents password with
      | none =>
        (.error (.KSException ⟨"pfxExport", 266, B.GetLastError⟩), m1.closeMemoryStore pfxStore)
      | some _ =>
        match B.pfxExportData pfxContents password with
        | none =>
          (.error (.KSException ⟨"pfxExport", 275, B.GetLastError⟩),
            m1.closeMemoryStore pfxStore)
        | some pfxData =>
          match B.binaryToBase64Size pfxData with
          | none =>
            (.error (.KSException ⟨"pfxExport", 285, B.GetLastError⟩),
              m1.closeMemoryStore pfxStore)
          | some _ =>
            -- return std::string(base64PfxData.get(), base64PfxDataLg);
            (.ok (B.binaryToBase64 pfxData), m1)

/-- The method `CertificateStore::pfxExport`. -/
def pfxExport (B : Backend) (m : CertificateStore) (issuer : String) (serial : String)
    (password : String) : Except Exception String × CertificateStore :=
  match B.hexToBinary (tmpSerial serial) with
  | none => (.error (.KSException ⟨"pfxExport", 206, B.GetLastError⟩), m)
  | some serialNumber =>
    match pfxExportLookup B m.store issuer (reversedSerNum serialNumber) with
    | .error e => (.error e, m)
    | .ok certificateCtx => pfxExportStage B m certificateCtx password

/-! ## `forcePasswordPINProtection` -/

/-- The registry key `HKLM\SOFTWARE\Policies\Microsoft\Cryptography`: `none` when
the key does not exist, otherwise the `REG_DWORD` value `ForceKeyProtection` of
the key, `none` when the key has no such value. -/
structure Registry where
  policyKey : Option (Option Nat)
  deriving DecidableEq, Repr

/-- The policy value `ForceKeyProtection` of the registry, if there is one. -/
def Registry.policyValue (r : Registry) : Option Nat :=
  match r.policyKey with
  | some v => v
  | none => none

/-- The statuses that the registry calls of `forcePasswordPINProtection` return,
apart from the query of a value that is absent, which returns
`ERROR_FILE_NOT_FOUND`. -/
structure RegistryBackend where
  /-- The value of `GetLastError()` after a failed call. -/
  GetLastError : Nat
  /-- The status of `RegCreateKeyEx(..., KEY_READ, ...)`. -/
  createKeyRead : Nat
  /-- The status of `RegQueryValueEx` on a value that is present. -/
  queryValue : Nat
  /-- The status of `RegCreateKeyEx(..., KEY_READ | KEY_WRITE, ...)`. -/
  createKeyWrite : Nat
  /-- The status of `RegSetValueEx`. -/
  setValue : Nat

/-- A successful `RegCreateKeyEx`: the key exists afterwards. -/
def Registry.createKey (r : Registry) : Registry :=
  match r.policyKey with
  | some _ => r
  | none => ⟨some none⟩

/-- The outcome of `forcePasswordPINProtection`: the exception if one is thrown,
the registry afterwards, and the values written with `RegSetValueEx`. -/
structure PolicyOutcome where
  result : Except Exception Unit
  registry : Registry
  written : List Nat
  deriving DecidableEq, Repr

/-- The method `CertificateStore::forcePasswordPINProtection(k)`. -/
def forcePasswordPINProtection (R : RegistryBackend) (r : Registry) (k : Nat) :
    PolicyOutcome :=
  -- DWORD dwValue = static_cast<DWORD>(k);
  let dwValue := toDWORD k
  -- first RegCreateKeyEx, with KEY_READ, and the query
  let r1 := if R.createKeyRead = ERROR_SUCCESS then r.createKey else r
  let (iRet, dwValue) :=
    if R.createKeyRead = ERROR_SUCCESS then
      match r1.policyValue with
      | some v => if R.queryValue = ERROR_SUCCESS then (R.queryValue, v) else (R.queryValue, dwValue)
      | none => (ERROR_FILE_NOT_FOUND, dwValue)
    else (R.createKeyRead, dwValue)
  if R.createKeyRead = ERROR_SUCCESS ∧ iRet = ERROR_SUCCESS ∧ dwValue = 2 then
    -- We are finished
    ⟨.ok (), r1, []⟩
  else if R.createKeyWrite = ERROR_SUCCESS then
    let r2 := r1.createKey
    if R.setValue ≠ ERROR_SUCCESS then
      ⟨.error (.KSException ⟨"forcePasswordPINProtection", 428, R.GetLastError⟩), r2, []⟩
    else
      ⟨.ok (), ⟨some (some 2)⟩, [2]⟩
  else
    -- Failed creating registry key
    ⟨.error (.KSException ⟨"forcePasswordPINProtection", 435, R.GetLastError⟩), r1, []⟩

/-! ## Derived descriptions used to state the results -/

/-- The entry that a successful `importCertificate` leaves at the end of the
store: without properties when the provider has no key pair for the public key
of the certificate, with both properties otherwise. -/
def importedEntry (B : Backend) (ks : KeyStore) (cert : Bytes) (info : CERT_INFO) :
    CERT_CONTEXT :=
  match ks.getKeyPair info.SubjectPublicKeyInfo with
  | none => ⟨cert, info, none, none⟩
  | some keyPair =>
    ⟨cert, info, some ⟨keyPair.name, MS_KEY_STORAGE_PROVIDER, 0, 0, 0, AT_SIGNATURE⟩,
      some (readKeyHandle B (toDWORD keyPair.handle))⟩

/-- The number of entries of a store that have the identity of `c`. -/
def countIdentity (store : List CERT_CONTEXT) (c : CERT_CONTEXT) : Nat :=
  store.countP (fun e => sameIdentity e c)

/-- The hexadecimal digits. -/
def isHexDigit (c : Char) : Bool :=
  c.isDigit || ('a' ≤ c && c ≤ 'f') || ('A' ≤ c && c ≤ 'F')

/-! ## Concrete data for the evaluations -/

/-- A toy decoder of basic constraints: the value `[1]` is `CA=true`, the value
`[0]` is `CA=false`, anything else does not decode. -/
def sampleDecodeBasicConstraints2 : Bytes → Option CERT_BASIC_CONSTRAINTS2_INFO
  | [1] => some ⟨true, false, 0⟩
  | [0] => some ⟨false, false, 0⟩
  | _ => none

/-- A toy decoder of certificates: the bytes are serial number, issuer and public
key, one byte each; the certificate has no extensions. -/
def sampleDecodeCertificate : Bytes → Option CERT_INFO
  | [serial, issuer, key] => some ⟨[serial], [issuer], [key], []⟩
  | _ => none

/-- A leaf certificate: its basic-constraints extension says `CA=false`. -/
def sampleLeaf : CERT_CONTEXT :=
  ⟨[7, 1, 9], ⟨[7], [1], [9], [⟨"2.5.29.15", [3]⟩, ⟨"2.5.29.19", [0]⟩]⟩, none, none⟩

/-- A CA certificate: its basic-constraints extension says `CA=true`. -/
def sampleCA : CERT_CONTEXT :=
  ⟨[1, 1, 8], ⟨[1], [1], [8], [⟨"2.5.29.19", [1]⟩]⟩, none, none⟩

/-- A certificate whose only extension has an OID string that is longer than
`szOID_BASIC_CONSTRAINTS2` and begins with it. -/
def sampleLongOid : CERT_CONTEXT :=
  ⟨[5, 1, 6], ⟨[5], [1], [6], [⟨"2.5.29.190", [1]⟩]⟩, none, none⟩

/-- A backend in which every call succeeds. -/
def sampleBackend : Backend where
  GetLastError := 87
  UuidCreate := RPC_S_OK
  UuidToStringW := .ok "0f8fad5b-d9cb-469f-a165-70867728950e"
  generateKey := fun _ _ _ => .ok (4096, [9])
  X509Name := fun name _ => .ok (name.data.map Char.toNat)
  signAndEncodeSize := fun _ info => some (info.Subject.length + 1)
  signAndEncode := fun handle info => some (handle :: info.Subject)
  binaryToBase64RequestHeaderSize := fun b => some b.length
  binaryToBase64RequestHeader := fun _ => "-----BEGIN NEW CERTIFICATE REQUEST-----"
  base64HeaderToBinary := fun s => some (s.data.map Char.toNat)
  decodeCertificate := sampleDecodeCertificate
  setKeyProvInfoOk := fun _ _ => true
  setKeyHandleOk := fun _ _ => true
  bytesBehindKeyHandle := none
  hexToBinary := fun s => some (s.data.map Char.toNat)
  openMemoryStoreOk := true
  addContextOk := fun _ _ => true
  pfxExportSize := fun store _ => some store.length
  pfxExportData := fun store _ => some (store.map (fun c => c.pbCertEncoded.length))
  binaryToBase64Size := fun b => some b.length
  binaryToBase64 := fun _ => "MIIKPAIBAzCC"
  base64AnyToBinary := fun s => some (s.data.map Char.toNat)
  PFXImportCertStore := fun _ _ _ => some [sampleLeaf, sampleCA]
  decodeBasicConstraints2 := sampleDecodeBasicConstraints2

/-- The backend `sampleBackend` with a `UuidCreate` that returns
`RPC_S_UUID_NO_ADDRESS`. -/
def sampleBackendUuidCreateFails : Backend :=
  { sampleBackend with UuidCreate := 1739 }

/-- The key pair that `sampleBackend` generates for a request of 2048 bits. -/
def sampleKeyPair : KeyPair :=
  ⟨"0f8fad5b-d9cb-469f-a165-70867728950e", 4096, [9], 2048, false⟩

/-- The backend `sampleBackend` with a base64 decoder that fails. -/
def sampleBackendBase64Fails : Backend :=
  { sampleBackend with base64HeaderToBinary := fun _ => none }

/-- The backend `sampleBackend` in which setting the key-handle property fails. -/
def sampleBackendKeyHandleFails : Backend :=
  { sampleBackend with setKeyHandleOk := fun _ _ => false }

/-- The backend `sampleBackend` in which setting the key-provider linkage fails. -/
def sampleBackendKeyProvInfoFails : Backend :=
  { sampleBackend with setKeyProvInfoOk := fun _ _ => false }

/-- The certificate that `sampleBackend` decodes from the PEM text `abc`. -/
def sampleCertificate : CERT_CONTEXT :=
  ⟨[97, 98, 99], ⟨[97], [98], [99], []⟩, none, none⟩

/-- A manager whose store holds `sampleCertificate`. -/
def sampleStoredManager : CertificateStore :=
  ⟨[sampleCertificate], true, ⟨MS_KEY_STORAGE_PROVIDER, []⟩, "", []⟩

/-- The provider name `MS_SMART_CARD_KEY_STORAGE_PROVIDER` of `ncrypt.h`. -/
def MS_SMART_CARD_KEY_STORAGE_PROVIDER : String := "Microsoft Smart Card Key Storage Provider"

/-- A key pair for the public key of `sampleCertificate`. -/
def sampleMatchingKeyPair : KeyPair :=
  ⟨"0f8fad5b-d9cb-469f-a165-70867728950e", 4096, [99], 2048, false⟩

/-- A manager constructed with `CertificateStore(keyStoreProvider)` for the smart
card provider, whose provider holds `sampleMatchingKeyPair`. -/
def sampleSmartCardManager : CertificateStore :=
  ⟨[], true, ⟨MS_SMART_CARD_KEY_STORAGE_PROVIDER, [sampleMatchingKeyPair]⟩, "", []⟩

/-- A key pair for the public key of `sampleCertificate` whose handle does not fit
in 32 bits. -/
def sampleWideKeyPair : KeyPair :=
  ⟨"0f8fad5b-d9cb-469f-a165-70867728950e", 4294967301, [99], 2048, false⟩

/-- A manager whose provider holds `sampleWideKeyPair`. -/
def sampleWideKeyManager : CertificateStore :=
  ⟨[], true, ⟨MS_KEY_STORAGE_PROVIDER, [sampleWideKeyPair]⟩, "", []⟩

/-- The backend `sampleBackend` on a build with handles of 8 bytes, with the
bytes `CC CC CC CC` behind the variable `keyHandle`. -/
def sampleBackend64 : Backend :=
  { sampleBackend with bytesBehindKeyHandle := some 0xCCCCCCCC }

/-- A registry backend in which every call succeeds. -/
def sampleRegistryBackend : RegistryBackend :=
  ⟨87, ERROR_SUCCESS, ERROR_SUCCESS, ERROR_SUCCESS, ERROR_SUCCESS⟩

/-- A manager with an empty store, an open store handle and an empty provider. -/
def sampleManager : CertificateStore :=
  ⟨[], true, ⟨MS_KEY_STORAGE_PROVIDER, []⟩, "", []⟩

/-! ## Results: `importCertificate` and re-import -/

theorem setContextProperty_append_last (s : List CERT_CONTEXT) (c : CERT_CONTEXT)
    (f : CERT_CONTEXT → CERT_CONTEXT) :
    setContextProperty (s ++ [c]) s.length f = s ++ [f c] := by
  simp [setContextProperty]

/-- A successful `importCertificate` decoded the PEM text and the certificate, and
its only effect is one new entry at the end of the store. -/
theorem importCertificate_ok (B : Backend) (m : CertificateStore) (pem : String)
    (h : (importCertificate B m pem).1 = .ok ()) :
    ∃ cert info, B.base64HeaderToBinary pem = some cert ∧ B.decodeCertificate cert = some info ∧
      (importCertificate B m pem).2 =
        { m with store := m.store ++ [importedEntry B m.keyStore cert info] } := by
  unfold importCertificate at h ⊢
  split at h
  · simp at h
  · rename_i hlen
    rw [if_neg hlen]
    cases hb : B.base64HeaderToBinary pem with
    | none => simp [hb] at h
    | some cert =>
      cases hd : B.decodeCertificate cert with
      | none => simp [hb, hd] at h
      | some info =>
        refine ⟨cert, info, rfl, hd, ?_⟩
        simp only [hb, hd] at h ⊢
        cases hk : m.keyStore.getKeyPair info.SubjectPublicKeyInfo with
        | none => simp [hk, importedEntry, addToStore]
        | some kp =>
          simp only [hk] at h ⊢
          by_cases h1 : B.setKeyProvInfoOk ⟨cert, info, none, none⟩
              ⟨kp.name, MS_KEY_STORAGE_PROVIDER, 0, 0, 0, AT_SIGNATURE⟩ = true
          · by_cases h2 : B.setKeyHandleOk ⟨cert, info, none, none⟩ (toDWORD kp.handle) = true
            · simp [h1, h2, importedEntry, hk, addToStore, setContextProperty_append_last]
            · simp [h1, h2] at h
          · simp [h1] at h

theorem sameIdentity_self (c : CERT_CONTEXT) : sameIdentity c c = true := by
  simp [sameIdentity]

/-- C1. Re-importing a certificate does not replace the entry of the first import:
whenever two calls of `importCertificate` with the same PEM text both succeed, the
first appends an entry `e` to the store and the second appends `e` once more, so
the store then holds one more entry of that identity than after one import, and
differs from it. -/
theorem importCertificate_twice_duplicates (B : Backend) (m : CertificateStore) (pem : String)
    (h1 : (importCertificate B m pem).1 = .ok ())
    (h2 : (importCertificate B (importCertificate B m pem).2 pem).1 = .ok ()) :
    ∃ e, (importCertificate B m pem).2.store = m.store ++ [e] ∧
      (importCertificate B (importCertificate B m pem).2 pem).2.store = m.store ++ [e, e] ∧
      countIdentity (importCertificate B (importCertificate B m pem).2 pem).2.store e =
        countIdentity (importCertificate B m pem).2.store e + 1 ∧
      (importCertificate B (importCertificate B m pem).2 pem).2.store ≠
        (importCertificate B m pem).2.store := by
  obtain ⟨cert, info, hb, hd, hm1⟩ := importCertificate_ok B m pem h1
  obtain ⟨cert2, info2, hb2, hd2, hm2⟩ := importCertificate_ok B _ pem h2
  rw [hb] at hb2
  cases hb2
  rw [hd] at hd2
  cases hd2
  refine ⟨importedEntry B m.keyStore cert info, ?_, ?_, ?_, ?_⟩
  · rw [hm1]
  · rw [hm2, hm1]
    simp
  · rw [hm2, hm1]
    simp [countIdentity, List.countP_append, sameIdentity_self]
  · rw [hm2, hm1]
    intro hEq
    have hlen := congrArg List.length hEq
    simp at hlen

/-- An instance of C1: importing the PEM text `abc` twice into the empty store
leaves two entries. -/
theorem importCertificate_twice_duplicates_witness :
    (importCertificate sampleBackend sampleManager "abc").1 = .ok () ∧
    (importCertificate sampleBackend
      (importCertificate sampleBackend sampleManager "abc").2 "abc").1 = .ok () ∧
    ∃ e, (importCertificate sampleBackend sampleManager "abc").2.store = [] ++ [e] ∧
      (importCertificate sampleBackend
        (importCertificate sampleBackend sampleManager "abc").2 "abc").2.store = [] ++ [e, e] ∧
      countIdentity (importCertificate sampleBackend
        (importCertificate sampleBackend sampleManager "abc").2 "abc").2.store e =
        countIdentity (importCertificate sampleBackend sampleManager "abc").2.store e + 1 ∧
      (importCertificate sampleBackend
        (importCertificate sampleBackend sampleManager "abc").2 "abc").2.store ≠
        (importCertificate sampleBackend sampleManager "abc").2.store :=
  ⟨by decide, by decide,
    importCertificate_twice_duplicates sampleBackend sampleManager "abc" (by decide) (by decide)⟩

/-! ## Results: `pfxImport` and `isCACertificate` -/

/-- The main store that `pfxImport` is to leave: the certificates of the bundle
that `isCACertificate` rejects as CA certificates are dropped, the others are
added in enumeration order, each replacing the entries of its identity. -/
theorem pfxImportLoop_ok (B : Backend) (pfxStore : Nat) (bundle : List CERT_CONTEXT) :
    ∀ m : CertificateStore, (pfxImportLoop B pfxStore bundle m).1 = .ok () →
      (pfxImportLoop B pfxStore bundle m).2 =
        { m with
          store := List.foldl (addToStore .CERT_STORE_ADD_REPLACE_EXISTING) m.store
                    (bundle.filter (fun c => !isCACertificate B c)) } := by
  induction bundle with
  | nil => intro m _; simp [pfxImportLoop]
  | cons c rest ih =>
    intro m h
    unfold pfxImportLoop at h ⊢
    by_cases hca : isCACertificate B c = true
    · simp only [hca, if_true] at h ⊢
      rw [ih m h]
      simp [hca]
    · simp only [hca] at h ⊢
      by_cases hadd : B.addContextOk m.store c = true
      · simp only [hadd] at h ⊢
        simp at h ⊢
        rw [ih _ h]
        simp [hca]
      · simp [hadd] at h

/-- When no add fails the loop of `pfxImport` runs to its end. -/
theorem pfxImportLoop_total (B : Backend) (pfxStore : Nat) (bundle : List CERT_CONTEXT)
    (hadd : ∀ s c, B.addContextOk s c = true) :
    ∀ m : CertificateStore, (pfxImportLoop B pfxStore bundle m).1 = .ok () := by
  induction bundle with
  | nil => intro m; simp [pfxImportLoop]
  | cons c rest ih =>
    intro m
    unfold pfxImportLoop
    by_cases hca : isCACertificate B c = true
    · simp only [hca, if_true]
      exact ih m
    · simp only [hca, hadd]
      simpa using ih _

/-- Adding certificates with `CERT_STORE_ADD_REPLACE_EXISTING` puts nothing in the
store but those certificates. -/
theorem mem_foldl_addToStore_replace (l : List CERT_CONTEXT) :
    ∀ (s : List CERT_CONTEXT) (x : CERT_CONTEXT),
      x ∈ l.foldl (addToStore .CERT_STORE_ADD_REPLACE_EXISTING) s → x ∈ s ∨ x ∈ l := by
  induction l with
  | nil => intro s x hx; exact Or.inl hx
  | cons c rest ih =>
    intro s x hx
    rw [List.foldl_cons] at hx
    rcases ih _ x hx with h | h
    · simp only [addToStore, List.mem_append, List.mem_filter, List.mem_singleton] at h
      rcases h with h | h
      · exact Or.inl h.1
      · exact Or.inr (by simp [h])
    · exact Or.inr (List.mem_cons_of_mem _ h)

/-- C2. After a successful `pfxImport` the bundle was decoded and unpacked into a
list of certificates, and the main store is the initial store with the
certificates of the bundle for which `isCACertificate` is false added with
replace-existing in enumeration order; every entry of the main store is an entry
of the initial store or a certificate of the bundle for which `isCACertificate`
is false, so no CA certificate of the bundle is added. -/
theorem pfxImport_skips_CA (B : Backend) (m : CertificateStore) (pfxInBase64 password : String)
    (forcePINPasswordProtection : Bool)
    (h : (pfxImport B m pfxInBase64 password forcePINPasswordProtection).1 = .ok ()) :
    ∃ blob bundle, B.base64AnyToBinary pfxInBase64 = some blob ∧
      B.PFXImportCertStore blob password (pfxImportFlags forcePINPasswordProtection) =
        some bundle ∧
      (pfxImport B m pfxInBase64 password forcePINPasswordProtection).2.store =
        (bundle.filter (fun c => !isCACertificate B c)).foldl
          (addToStore .CERT_STORE_ADD_REPLACE_EXISTING) m.store ∧
      ∀ c ∈ (pfxImport B m pfxInBase64 password forcePINPasswordProtection).2.store,
        c ∈ m.store ∨ (c ∈ bundle ∧ isCACertificate B c = false) := by
  unfold pfxImport at h ⊢
  cases hb : B.base64AnyToBinary pfxInBase64 with
  | none => simp [hb] at h
  | some blob =>
    cases hp : B.PFXImportCertStore blob password (pfxImportFlags forcePINPasswordProtection) with
    | none => simp [hb, hp] at h
    | some bundle =>
      simp only [hb, hp] at h ⊢
      cases hl : pfxImportLoop B m.openMemoryStore.1 bundle m.openMemoryStore.2 with
      | mk r m2 =>
        cases r with
        | error e => simp [hl] at h
        | ok u =>
          have hok : (pfxImportLoop B m.openMemoryStore.1 bundle m.openMemoryStore.2).1 =
              .ok () := by rw [hl]
          have hst := pfxImportLoop_ok B _ bundle _ hok
          rw [hl] at hst
          simp only at hst
          have hstore : m2.store = (bundle.filter (fun c => !isCACertificate B c)).foldl
              (addToStore .CERT_STORE_ADD_REPLACE_EXISTING) m.store := by
            rw [hst]
            rfl
          refine ⟨blob, bundle, rfl, hp, ?_, ?_⟩
          · simpa [hl, CertificateStore.closeMemoryStore] using hstore
          · intro c hc
            have hc2 : c ∈ m2.store := by
              simpa [hl, CertificateStore.closeMemoryStore] using hc
            rw [hstore] at hc2
            rcases mem_foldl_addToStore_replace _ _ _ hc2 with h1 | h1
            · exact Or.inl h1
            · rw [List.mem_filter] at h1
              exact Or.inr ⟨h1.1, by simpa using h1.2⟩

/-- An instance of C2: a bundle of one leaf and one CA certificate imports only
the leaf. -/
theorem pfxImport_skips_CA_witness :
    (pfxImport sampleBackend sampleManager "MIIB" "secret" false).1 = .ok () ∧
    isCACertificate sampleBackend sampleLeaf = false ∧
    isCACertificate sampleBackend sampleCA = true ∧
    (pfxImport sampleBackend sampleManager "MIIB" "secret" false).2.store = [sampleLeaf] ∧
    ∃ blob bundle, sampleBackend.base64AnyToBinary "MIIB" = some blob ∧
      sampleBackend.PFXImportCertStore blob "secret" (pfxImportFlags false) = some bundle ∧
      (pfxImport sampleBackend sampleManager "MIIB" "secret" false).2.store =
        (bundle.filter (fun c => !isCACertificate sampleBackend c)).foldl
          (addToStore .CERT_STORE_ADD_REPLACE_EXISTING) sampleManager.store ∧
      ∀ c ∈ (pfxImport sampleBackend sampleManager "MIIB" "secret" false).2.store,
        c ∈ sampleManager.store ∨ (c ∈ bundle ∧ isCACertificate sampleBackend c = false) :=
  ⟨by decide, by decide, by decide, by decide,
    pfxImport_skips_CA sampleBackend sampleManager "MIIB" "secret" false (by decide)⟩

theorem char_toNat_injective {a b : Char} (h : a.toNat = b.toNat) : a = b := by
  apply Char.ext
  apply UInt32.ext
  exact h

/-- With the length of `b` as bound, `strncmp a b` is 0 exactly when `a` begins with
`b`: characters of `a` after the first `b.length` are not compared. -/
theorem strncmp_eq_zero_iff (b : List Char) (hb : ∀ c ∈ b, c.toNat ≠ 0) :
    ∀ a : List Char, strncmp a b b.length = 0 ↔ b <+: a := by
  induction b with
  | nil => intro a; simp [strncmp]
  | cons c bs ih =>
    intro a
    have hc : c.toNat ≠ 0 := hb c (List.mem_cons_self _ _)
    have hbs : ∀ x ∈ bs, x.toNat ≠ 0 := fun x hx => hb x (List.mem_cons_of_mem _ hx)
    cases a with
    | nil =>
      simp only [List.length_cons, strncmp]
      constructor
      · intro h; omega
      · intro h; simp at h
    | cons x xs =>
      simp only [List.length_cons, strncmp]
      by_cases hx : x = c
      · subst hx
        simp only [if_true]
        rw [ih hbs xs]
        simp [List.cons_prefix_cons]
      · simp only [hx, if_false]
        constructor
        · intro h
          exfalso
          apply hx
          apply char_toNat_injective
          omega
        · intro h
          rw [List.cons_prefix_cons] at h
          exact absurd h.1.symm hx

/-- What `isCACertificate` computes: the first extension whose OID string begins
with `szOID_BASIC_CONSTRAINTS2` decides, by the CA flag of its decoding. -/
theorem isCACertificateLoop_eq (B : Backend) (exts : List CERT_EXTENSION) :
    isCACertificateLoop B exts =
      match exts.find? (fun e => szOID_BASIC_CONSTRAINTS2.data.isPrefixOf e.pszObjId.data) with
      | some e =>
        (match B.decodeBasicConstraints2 e.Value with
          | some info => info.fCA
          | none => false)
      | none => false := by
  have hz : ∀ c ∈ szOID_BASIC_CONSTRAINTS2.data, c.toNat ≠ 0 := by decide
  induction exts with
  | nil => simp [isCACertificateLoop]
  | cons e rest ih =>
    unfold isCACertificateLoop
    have hiff := strncmp_eq_zero_iff _ hz e.pszObjId.data
    rw [String.length] at *
    by_cases hp : szOID_BASIC_CONSTRAINTS2.data <+: e.pszObjId.data
    · have h0 := hiff.mpr hp
      have hpre : szOID_BASIC_CONSTRAINTS2.data.isPrefixOf e.pszObjId.data = true := by
        simpa using hp
      simp only [h0, if_true, List.find?_cons, hpre]
      cases B.decodeBasicConstraints2 e.Value <;> simp
    · have h0 : ¬ strncmp e.pszObjId.data szOID_BASIC_CONSTRAINTS2.data
          szOID_BASIC_CONSTRAINTS2.data.length = 0 := fun h => hp (hiff.mp h)
      have hpre : szOID_BASIC_CONSTRAINTS2.data.isPrefixOf e.pszObjId.data = false := by
        rw [Bool.eq_false_iff]
        intro h
        exact hp (by simpa using h)
      simp only [h0, if_false, List.find?_cons, hpre]
      exact ih

/-- C3. The OID test of `isCACertificate` compares only the first
`strlen(szOID_BASIC_CONSTRAINTS2)` characters: for the certificate whose single
extension has the OID string `2.5.29.190` and a value that decodes with the CA
flag set, `isCACertificate` returns true although no extension of the
certificate has the basic-constraints OID. -/
theorem isCACertificate_longer_oid :
    isCACertificate sampleBackend sampleLongOid = true ∧
    (∀ e ∈ sampleLongOid.pCertInfo.rgExtension, e.pszObjId ≠ szOID_BASIC_CONSTRAINTS2) ∧
    sampleLongOid.pCertInfo.rgExtension.find? (fun e => e.pszObjId == szOID_BASIC_CONSTRAINTS2) =
      none := by
  decide

/-! ## Results: the serial number of `pfxExport` -/

/-- A serial with the prefix `0x` loses the prefix and gets one leading zero when
the number of remaining characters is odd. -/
theorem tmpSerial_0x (h : List Char) :
    tmpSerial ⟨'0' :: 'x' :: h⟩ = if h.length % 2 = 0 then ⟨h⟩ else ⟨'0' :: h⟩ := by
  by_cases hl : h.length % 2 = 0 <;> simp [tmpSerial, rfindAtZero, hl]

/-- A serial with the prefix `0X` is treated like one with the prefix `0x`. -/
theorem tmpSerial_0X (h : List Char) :
    tmpSerial ⟨'0' :: 'X' :: h⟩ = if h.length % 2 = 0 then ⟨h⟩ else ⟨'0' :: h⟩ := by
  by_cases hl : h.length % 2 = 0 <;> simp [tmpSerial, rfindAtZero, hl]

/-- A serial of hexadecimal digits without prefix reaches the hex decoder as it
is, whatever its length. -/
theorem tmpSerial_hex (h : List Char) (hh : ∀ c ∈ h, isHexDigit c = true) :
    tmpSerial ⟨h⟩ = ⟨h⟩ := by
  have hx : isHexDigit 'x' = false := by decide
  have hX : isHexDigit 'X' = false := by decide
  match h, hh with
  | [], _ => simp [tmpSerial, rfindAtZero]
  | [a], _ => simp [tmpSerial, rfindAtZero]
  | a :: b :: rest, hh =>
    have hb : isHexDigit b = true := hh b (by simp)
    have h1 : b ≠ 'x' := fun e => by rw [e, hx] at hb; exact Bool.noConfusion hb
    have h2 : b ≠ 'X' := fun e => by rw [e, hX] at hb; exact Bool.noConfusion hb
    have h3 : ¬ ('0' = a ∧ 'x' = b ∨ '0' = a ∧ 'X' = b) := by
      rintro (⟨_, e⟩ | ⟨_, e⟩)
      · exact h1 e.symm
      · exact h2 e.symm
    simp [tmpSerial, rfindAtZero, h3]

/-- C4. The leading zero is inserted only inside the branch that removes a prefix:
the serial `ABC` reaches the hex decoder as `ABC`, with three digits, while
`0xABC` and `0XABC` reach it as `0ABC`; the even-length `1A`, `0x1A` and `0X1A`
all reach it as `1A`. -/
theorem tmpSerial_odd_unprefixed :
    tmpSerial "ABC" = "ABC" ∧ tmpSerial "0xABC" = "0ABC" ∧ tmpSerial "0XABC" = "0ABC" ∧
    tmpSerial "ABC" ≠ tmpSerial "0xABC" ∧ (tmpSerial "ABC").length % 2 = 1 ∧
    tmpSerial "1A" = "1A" ∧ tmpSerial "0x1A" = "1A" ∧ tmpSerial "0X1A" = "1A" := by
  decide

/-! ## Results: `createCertificateRequest` -/

/-- The status of `UuidCreate` has no influence on `createCertificateRequest`. -/
theorem createCertificateRequest_UuidCreate_status_irrelevant (B : Backend)
    (m : CertificateStore) (subjectName : String) (bitLength : Nat) (force : Bool)
    (status : Nat) :
    createCertificateRequest { B with UuidCreate := status } m subjectName bitLength force =
      createCertificateRequest B m subjectName bitLength force := by
  rfl

/-- After a `UuidToStringW` that failed, line 43 throws nothing either and line 45
reads the pointer that was never set: the embedding gives no result there. -/
theorem createCertificateRequest_UuidToStringW_failure (B : Backend) (m : CertificateStore)
    (subjectName : String) (bitLength : Nat) (force : Bool) (status : Nat)
    (h : B.UuidToStringW = .error status) :
    createCertificateRequest B m subjectName bitLength force = none := by
  simp [createCertificateRequest, h]

/-- C6. A failed `UuidCreate` raises nothing: with `UuidCreate` returning
`RPC_S_UUID_NO_ADDRESS`, a status that is neither `RPC_S_OK` nor
`RPC_S_UUID_LOCAL_ONLY`, and the other calls succeeding,
`createCertificateRequest` returns a request, has generated a key pair in the
provider, which was empty, and has changed the last key id. -/
theorem createCertificateRequest_uuid_failure_not_raised :
    sampleBackendUuidCreateFails.UuidCreate ≠ RPC_S_OK ∧
    sampleBackendUuidCreateFails.UuidCreate ≠ RPC_S_UUID_LOCAL_ONLY ∧
    createCertificateRequest sampleBackendUuidCreateFails sampleManager "CN=alice" 2048 false =
      some (.ok "-----BEGIN NEW CERTIFICATE REQUEST-----",
        { sampleManager with
          keyStore := ⟨MS_KEY_STORAGE_PROVIDER, [sampleKeyPair]⟩
          lastKeyId := "0f8fad5b-d9cb-469f-a165-70867728950e" }) ∧
    sampleManager.keyStore.keys = [] ∧ sampleManager.lastKeyId = "" := by
  decide

/-! ## Results: `forcePasswordPINProtection` -/

/-- C7. With registry calls that succeed, `forcePasswordPINProtection` is
idempotent on the registry: whatever the level arguments and the registry before,
after one call the policy value is 2; a second call writes nothing and leaves the
registry as the first call left it; a call on a registry whose policy value is
already 2 writes nothing and changes nothing, any other first call writes the
value 2 once, so that two calls in succession write at most once. -/
theorem forcePasswordPINProtection_idempotent (R : RegistryBackend) (r : Registry) (k k2 : Nat)
    (h1 : R.createKeyRead = ERROR_SUCCESS) (h2 : R.queryValue = ERROR_SUCCESS)
    (h3 : R.createKeyWrite = ERROR_SUCCESS) (h4 : R.setValue = ERROR_SUCCESS) :
    (forcePasswordPINProtection R r k).result = .ok () ∧
    (forcePasswordPINProtection R r k).registry.policyValue = some 2 ∧
    forcePasswordPINProtection R (forcePasswordPINProtection R r k).registry k2 =
      ⟨.ok (), (forcePasswordPINProtection R r k).registry, []⟩ ∧
    (r.policyValue = some 2 → forcePasswordPINProtection R r k = ⟨.ok (), r, []⟩) ∧
    (r.policyValue ≠ some 2 → (forcePasswordPINProtection R r k).written = [2]) ∧
    ((forcePasswordPINProtection R r k).written ++
      (forcePasswordPINProtection R (forcePasswordPINProtection R r k).registry k2).written).length
        ≤ 1 := by
  obtain ⟨key⟩ := r
  rcases key with _ | _ | v
  · simp [forcePasswordPINProtection, h1, h2, h3, h4, Registry.createKey, Registry.policyValue,
      ERROR_SUCCESS, ERROR_FILE_NOT_FOUND]
  · simp [forcePasswordPINProtection, h1, h2, h3, h4, Registry.createKey, Registry.policyValue,
      ERROR_SUCCESS, ERROR_FILE_NOT_FOUND]
  · by_cases hv : v = 2
    · subst hv
      simp [forcePasswordPINProtection, h1, h2, h3, h4, Registry.createKey, Registry.policyValue,
        ERROR_SUCCESS, ERROR_FILE_NOT_FOUND]
    · simp [forcePasswordPINProtection, h1, h2, h3, h4, Registry.createKey, Registry.policyValue,
        ERROR_SUCCESS, ERROR_FILE_NOT_FOUND, hv]

/-- An instance of C7: from a registry without the policy key, with levels 1 and
then 2. -/
theorem forcePasswordPINProtection_idempotent_witness :
    (forcePasswordPINProtection sampleRegistryBackend ⟨none⟩ 1).written = [2] ∧
    (forcePasswordPINProtection sampleRegistryBackend ⟨none⟩ 1).result = .ok () ∧
    (forcePasswordPINProtection sampleRegistryBackend ⟨none⟩ 1).registry.policyValue = some 2 ∧
    forcePasswordPINProtection sampleRegistryBackend
        (forcePasswordPINProtection sampleRegistryBackend ⟨none⟩ 1).registry 2 =
      ⟨.ok (), (forcePasswordPINProtection sampleRegistryBackend ⟨none⟩ 1).registry, []⟩ ∧
    ((⟨none⟩ : Registry).policyValue = some 2 →
      forcePasswordPINProtection sampleRegistryBackend ⟨none⟩ 1 = ⟨.ok (), ⟨none⟩, []⟩) ∧
    ((⟨none⟩ : Registry).policyValue ≠ some 2 →
      (forcePasswordPINProtection sampleRegistryBackend ⟨none⟩ 1).written = [2]) ∧
    ((forcePasswordPINProtection sampleRegistryBackend ⟨none⟩ 1).written ++
      (forcePasswordPINProtection sampleRegistryBackend
        (forcePasswordPINProtection sampleRegistryBackend ⟨none⟩ 1).registry 2).written).length
        ≤ 1 :=
  ⟨by decide,
    forcePasswordPINProtection_idempotent sampleRegistryBackend ⟨none⟩ 1 2 rfl rfl rfl rfl⟩

/-! ## Results: the staging store of `pfxExport` -/

/-- Closing the transient store that was opened last gives back the manager. -/
theorem closeMemoryStore_openMemoryStore (m : CertificateStore) :
    m.openMemoryStore.2.closeMemoryStore m.openMemoryStore.1 = m := by
  simp [CertificateStore.openMemoryStore, CertificateStore.closeMemoryStore]

/-- The two outcomes of the staging part of `pfxExport`: an exception with the
manager as it was, or a bundle with the staging store still open. -/
theorem pfxExportStage_cases (B : Backend) (m : CertificateStore) (c : CERT_CONTEXT)
    (password : String) :
    (∃ e, pfxExportStage B m c password = (.error e, m)) ∨
    (∃ bundle, pfxExportStage B m c password = (.ok bundle, m.openMemoryStore.2)) := by
  unfold pfxExportStage
  by_cases ho : B.openMemoryStoreOk = true
  · by_cases ha : B.addContextOk [] c = true
    · simp only [ho, ha]
      cases h1 : B.pfxExportSize (addToStore .CERT_STORE_ADD_USE_EXISTING [] c) password with
      | none =>
        left
        exact ⟨.KSException ⟨"pfxExport", 266, B.GetLastError⟩,
          by simp [closeMemoryStore_openMemoryStore]⟩
      | some n =>
        cases h2 : B.pfxExportData (addToStore .CERT_STORE_ADD_USE_EXISTING [] c) password with
        | none =>
          left
          exact ⟨.KSException ⟨"pfxExport", 275, B.GetLastError⟩,
            by simp [closeMemoryStore_openMemoryStore]⟩
        | some pfxData =>
          cases h3 : B.binaryToBase64Size pfxData with
          | none =>
            left
            exact ⟨.KSException ⟨"pfxExport", 285, B.GetLastError⟩,
              by simp [h3, closeMemoryStore_openMemoryStore]⟩
          | some n2 =>
            right
            exact ⟨B.binaryToBase64 pfxData, by simp [h3]⟩
    · left
      exact ⟨.KSException ⟨"pfxExport", 258, B.GetLastError⟩,
        by simp [ho, ha, closeMemoryStore_openMemoryStore]⟩
  · left
    exact ⟨.KSException ⟨"pfxExport", 251, B.GetLastError⟩, by simp [ho]⟩

/-- The two outcomes of `pfxExport`: an exception with the manager as it was, or a
bundle with the staging store still open. -/
theorem pfxExport_cases (B : Backend) (m : CertificateStore) (issuer serial password : String) :
    (∃ e, pfxExport B m issuer serial password = (.error e, m)) ∨
    (∃ bundle, pfxExport B m issuer serial password = (.ok bundle, m.openMemoryStore.2)) := by
  unfold pfxExport
  cases h1 : B.hexToBinary (tmpSerial serial) with
  | none =>
    left
    exact ⟨.KSException ⟨"pfxExport", 206, B.GetLastError⟩, rfl⟩
  | some serialNumber =>
    cases h2 : pfxExportLookup B m.store issuer (reversedSerNum serialNumber) with
    | error e =>
      left
      exact ⟨e, by simp only [h2]⟩
    | ok c =>
      simp only [h2]
      exact pfxExportStage_cases B m c password

/-- Every path of `pfxExport` that ends with an exception leaves the set of open
transient stores as it was. -/
theorem pfxExport_error_closes_memory_store (B : Backend) (m : CertificateStore)
    (issuer serial password : String) (e : Exception)
    (h : (pfxExport B m issuer serial password).1 = .error e) :
    (pfxExport B m issuer serial password).2.memoryStores = m.memoryStores := by
  rcases pfxExport_cases B m issuer serial password with ⟨e2, h2⟩ | ⟨bundle, h2⟩
  · rw [h2]
  · rw [h2] at h
    simp at h

/-- C8. The path of `pfxExport` that returns a bundle does not close the staging
memory store: whenever `pfxExport` returns a bundle, the open transient stores
are the ones before the call and the staging store, one more than before. -/
theorem pfxExport_success_leaves_memory_store_open (B : Backend) (m : CertificateStore)
    (issuer serial password bundle : String)
    (h : (pfxExport B m issuer serial password).1 = .ok bundle) :
    (pfxExport B m issuer serial password).2.memoryStores =
      freshHandle m.memoryStores :: m.memoryStores ∧
    (pfxExport B m issuer serial password).2.memoryStores.length = m.memoryStores.length + 1 ∧
    (pfxExport B m issuer serial password).2.memoryStores ≠ m.memoryStores := by
  rcases pfxExport_cases B m issuer serial password with ⟨e2, h2⟩ | ⟨bundle2, h2⟩
  · rw [h2] at h
    simp at h
  · rw [h2]
    refine ⟨rfl, by simp [CertificateStore.openMemoryStore], ?_⟩
    intro hEq
    have hlen := congrArg List.length hEq
    simp [CertificateStore.openMemoryStore] at hlen

/-- An instance of C8: exporting the stored certificate with a backend in which
every call succeeds returns a bundle and leaves one transient store open where
none was open before. -/
theorem pfxExport_success_leaves_memory_store_open_witness :
    (pfxExport sampleBackend sampleStoredManager "b" "a" "secret").1 = .ok "MIIKPAIBAzCC" ∧
    sampleStoredManager.memoryStores = [] ∧
    (pfxExport sampleBackend sampleStoredManager "b" "a" "secret").2.memoryStores = [1] ∧
    (pfxExport sampleBackend sampleStoredManager "b" "a" "secret").2.memoryStores =
      freshHandle sampleStoredManager.memoryStores :: sampleStoredManager.memoryStores ∧
    (pfxExport sampleBackend sampleStoredManager "b" "a" "secret").2.memoryStores.length =
      sampleStoredManager.memoryStores.length + 1 ∧
    (pfxExport sampleBackend sampleStoredManager "b" "a" "secret").2.memoryStores ≠
      sampleStoredManager.memoryStores :=
  ⟨by decide, by decide, by decide,
    pfxExport_success_leaves_memory_store_open sampleBackend sampleStoredManager "b" "a" "secret"
      "MIIKPAIBAzCC" (by decide)⟩

/-! ## Results: key binding and failures of `importCertificate` -/

/-- The properties of the entry that a successful `importCertificate` adds: with a
key pair of the provider for the public key of the certificate, the key-provider
linkage names the key pair and `MS_KEY_STORAGE_PROVIDER`, and the key-handle
property is what the call reads at the address of the handle converted to
`DWORD`, which is the handle itself on a build with handles of 4 bytes; without
such a key pair it has neither property. -/
theorem importedEntry_properties (B : Backend) (ks : KeyStore) (cert : Bytes)
    (info : CERT_INFO) :
    (∀ kp, ks.getKeyPair info.SubjectPublicKeyInfo = some kp →
      (importedEntry B ks cert info).keyProvInfo =
        some ⟨kp.name, MS_KEY_STORAGE_PROVIDER, 0, 0, 0, AT_SIGNATURE⟩ ∧
      (importedEntry B ks cert info).ncryptKeyHandle =
        some (readKeyHandle B (kp.handle % 2 ^ 32)) ∧
      (B.bytesBehindKeyHandle = none → kp.handle < 2 ^ 32 →
        (importedEntry B ks cert info).ncryptKeyHandle = some kp.handle)) ∧
    (ks.getKeyPair info.SubjectPublicKeyInfo = none →
      (importedEntry B ks cert info).keyProvInfo = none ∧
      (importedEntry B ks cert info).ncryptKeyHandle = none) := by
  constructor
  · intro kp hkp
    refine ⟨by simp [importedEntry, hkp], by simp only [importedEntry, hkp, toDWORD], ?_⟩
    intro hb hlt
    have hmod : kp.handle % 2 ^ 32 = kp.handle := Nat.mod_eq_of_lt hlt
    simp only [importedEntry, hkp, toDWORD, hmod, readKeyHandle, hb]
  · intro hnone
    simp [importedEntry, hnone]

/-- Without a key pair for the public key of the certificate, and with a PEM text
and a certificate that decode, `importCertificate` returns without exception. -/
theorem importCertificate_without_key_pair (B : Backend) (m : CertificateStore) (pem : String)
    (cert : Bytes) (info : CERT_INFO) (hlen : pem.length ≤ MAXDWORD)
    (hb : B.base64HeaderToBinary pem = some cert) (hd : B.decodeCertificate cert = some info)
    (hk : m.keyStore.getKeyPair info.SubjectPublicKeyInfo = none) :
    importCertificate B m pem =
      (.ok (), { m with store := m.store ++ [⟨cert, info, none, none⟩] }) := by
  have hlen2 : ¬ pem.length > MAXDWORD := Nat.not_lt.mpr hlen
  simp [importCertificate, hlen2, hb, hd, hk, addToStore]

/-- C9. The key-provider linkage does not name the provider that holds the key
pair: for a manager constructed for the smart card key storage provider, whose
provider holds a key pair for the public key of the certificate,
`importCertificate` succeeds and the linkage of the new entry names that key pair
and `MS_KEY_STORAGE_PROVIDER`, which is not the provider of the manager. -/
theorem importCertificate_linkage_names_default_provider :
    sampleSmartCardManager.keyStore.provider = MS_SMART_CARD_KEY_STORAGE_PROVIDER ∧
    sampleSmartCardManager.keyStore.getKeyPair [99] = some sampleMatchingKeyPair ∧
    (importCertificate sampleBackend sampleSmartCardManager "abc").1 = .ok () ∧
    (importCertificate sampleBackend sampleSmartCardManager "abc").2.store.map
        (fun c => (c.pCertInfo.SubjectPublicKeyInfo, c.keyProvInfo)) =
      [([99], some ⟨sampleMatchingKeyPair.name, MS_KEY_STORAGE_PROVIDER, 0, 0, 0,
        AT_SIGNATURE⟩)] ∧
    MS_KEY_STORAGE_PROVIDER ≠ sampleSmartCardManager.keyStore.provider := by
  decide

/-- On a build with handles of 8 bytes the key-handle property is not the handle
of the key pair: its low half is the handle converted to `DWORD` and its high
half is what lies behind the `DWORD` variable. -/
theorem importCertificate_key_handle_8_bytes :
    sampleWideKeyManager.keyStore.getKeyPair [99] = some sampleWideKeyPair ∧
    sampleWideKeyPair.handle = 0x100000005 ∧
    (importCertificate sampleBackend64 sampleWideKeyManager "abc").1 = .ok () ∧
    (importCertificate sampleBackend64 sampleWideKeyManager "abc").2.store.map
        (fun c => c.ncryptKeyHandle) = [some 0xCCCCCCCC00000005] := by
  decide

/-- C10. A failure of `importCertificate` closes the store handle on some paths
only. For a PEM text within the `DWORD` range: when base64 decoding fails, the
call throws a `KSException` and leaves the manager, its store handle included, as
it was; when adding the encoded certificate fails, or when setting the
key-provider linkage fails, it throws a `KSException` and the store handle is
closed; when setting the key-handle property fails it throws a `KSException`. -/
theorem importCertificate_failure_paths (B : Backend) (m : CertificateStore) (pem : String)
    (hlen : pem.length ≤ MAXDWORD) :
    (B.base64HeaderToBinary pem = none →
      importCertificate B m pem =
        (.error (.KSException ⟨"importCertificate", 70, B.GetLastError⟩), m)) ∧
    (∀ cert, B.base64HeaderToBinary pem = some cert → B.decodeCertificate cert = none →
      (importCertificate B m pem).1 =
        .error (.KSException ⟨"importCertificate", 90, B.GetLastError⟩) ∧
      (importCertificate B m pem).2.storeHandleOpen = false) ∧
    (∀ cert info kp, B.base64HeaderToBinary pem = some cert →
      B.decodeCertificate cert = some info →
      m.keyStore.getKeyPair info.SubjectPublicKeyInfo = some kp →
      B.setKeyProvInfoOk ⟨cert, info, none, none⟩
        ⟨kp.name, MS_KEY_STORAGE_PROVIDER, 0, 0, 0, AT_SIGNATURE⟩ = false →
      (importCertificate B m pem).1 =
        .error (.KSException ⟨"importCertificate", 108, B.GetLastError⟩) ∧
      (importCertificate B m pem).2.storeHandleOpen = false) ∧
    (∀ cert info kp, B.base64HeaderToBinary pem = some cert →
      B.decodeCertificate cert = some info →
      m.keyStore.getKeyPair info.SubjectPublicKeyInfo = some kp →
      B.setKeyProvInfoOk ⟨cert, info, none, none⟩
        ⟨kp.name, MS_KEY_STORAGE_PROVIDER, 0, 0, 0, AT_SIGNATURE⟩ = true →
      B.setKeyHandleOk ⟨cert, info, none, none⟩ (toDWORD kp.handle) = false →
      (importCertificate B m pem).1 =
        .error (.KSException ⟨"importCertificate", 115, B.GetLastError⟩)) := by
  have hlen2 : ¬ pem.length > MAXDWORD := Nat.not_lt.mpr hlen
  refine ⟨?_, ?_, ?_, ?_⟩
  · intro hb
    simp [importCertificate, hlen2, hb]
  · intro cert hb hd
    simp [importCertificate, hlen2, hb, hd, CertificateStore.closeStoreHandle]
  · intro cert info kp hb hd hk hs
    simp [importCertificate, hlen2, hb, hd, hk, hs, CertificateStore.closeStoreHandle]
  · intro cert info kp hb hd hk hs hh
    simp [importCertificate, hlen2, hb, hd, hk, hs, hh]

/-- An instance of C10: a certificate that does not decode makes the add fail,
and the store handle, open before, is closed. -/
theorem importCertificate_failure_paths_witness :
    sampleManager.storeHandleOpen = true ∧
    (importCertificate sampleBackend sampleManager "abcd").1 =
      .error (.KSException ⟨"importCertificate", 90, sampleBackend.GetLastError⟩) ∧
    (importCertificate sampleBackend sampleManager "abcd").2.storeHandleOpen = false :=
  ⟨by decide,
    (importCertificate_failure_paths sampleBackend sampleManager "abcd" (by decide)).2.1
      [97, 98, 99, 100] (by decide) (by decide)⟩

/-- C10, the claim as stated fails: when base64 decoding fails the call throws a
`KSException` and the store handle, open before, is still open. -/
theorem importCertificate_base64_failure_keeps_store_open :
    sampleManager.storeHandleOpen = true ∧
    (importCertificate sampleBackendBase64Fails sampleManager "abc").1 =
      .error (.KSException ⟨"importCertificate", 70, 87⟩) ∧
    (importCertificate sampleBackendBase64Fails sampleManager "abc").2.storeHandleOpen = true := by
  decide

/-- When setting the key-handle property fails the store handle is left as it
was, unlike in the failure of setting the key-provider linkage just before. -/
theorem importCertificate_key_handle_failure_store_handle (B : Backend) (m : CertificateStore)
    (pem : String) (cert : Bytes) (info : CERT_INFO) (kp : KeyPair)
    (hlen : pem.length ≤ MAXDWORD) (hb : B.base64HeaderToBinary pem = some cert)
    (hd : B.decodeCertificate cert = some info)
    (hk : m.keyStore.getKeyPair info.SubjectPublicKeyInfo = some kp)
    (hs : B.setKeyProvInfoOk ⟨cert, info, none, none⟩
      ⟨kp.name, MS_KEY_STORAGE_PROVIDER, 0, 0, 0, AT_SIGNATURE⟩ = true)
    (hh : B.setKeyHandleOk ⟨cert, info, none, none⟩ (toDWORD kp.handle) = false) :
    (importCertificate B m pem).2.storeHandleOpen = m.storeHandleOpen := by
  have hlen2 : ¬ pem.length > MAXDWORD := Nat.not_lt.mpr hlen
  simp [importCertificate, hlen2, hb, hd, hk, hs, hh]

/-! ## Results: the byte order of the serial number in `pfxExport` -/

/-- The vector `reversedSerNum` of `pfxExport` after the first `k` rounds of the
loop: its length is that of the serial, the last `k` positions hold the first
`k` bytes of the serial in reverse order and the others are still 0. -/
theorem reversedSerNum_rounds (b : Bytes) (k : Nat) (hk : k ≤ b.length) :
    ((List.range k).foldl
      (fun acc i => acc.set (b.length - 1 - i) (b.getD i 0)) (List.replicate b.length 0)).length
        = b.length ∧
    ∀ j, j < b.length →
      ((List.range k).foldl
        (fun acc i => acc.set (b.length - 1 - i) (b.getD i 0)) (List.replicate b.length 0))[j]? =
        if b.length - 1 - j < k then b[b.length - 1 - j]? else some 0 := by
  induction k with
  | zero =>
    refine ⟨by simp, fun j hj => ?_⟩
    simp [hj]
  | succ k ih =>
    obtain ⟨hlen, hget⟩ := ih (Nat.le_of_succ_le hk)
    rw [List.range_succ, List.foldl_append]
    simp only [List.foldl_cons, List.foldl_nil]
    generalize List.foldl (fun acc i => acc.set (b.length - 1 - i) (b.getD i 0))
      (List.replicate b.length 0) (List.range k) = acc at hlen hget ⊢
    refine ⟨by rw [List.length_set]; exact hlen, fun j hj => ?_⟩
    rw [List.getElem?_set]
    by_cases hjk : b.length - 1 - k = j
    · have h1 : b.length - 1 - j < k + 1 := by omega
      have h2 : b.length - 1 - j = k := by omega
      have h3 : k < b.length := by omega
      have h4 : b.length - 1 - k < acc.length := by omega
      rw [if_pos hjk, if_pos h4, if_pos h1, h2]
      simp [List.getD, h3]
    · rw [if_neg hjk, hget j hj]
      have h1 : (b.length - 1 - j < k + 1) ↔ (b.length - 1 - j < k) := by omega
      simp only [h1]

/-- Position `j` of the reversed serial holds the byte at position `n - 1 - j` of
the serial. -/
theorem reversedSerNum_getElem? (b : Bytes) (j : Nat) (hj : j < b.length) :
    (reversedSerNum b)[j]? = b[b.length - 1 - j]? := by
  have h := (reversedSerNum_rounds b b.length (Nat.le_refl _)).2 j hj
  have h1 : b.length - 1 - j < b.length := by omega
  rw [if_pos h1] at h
  exact h

/-- The reversed serial has the length of the serial. -/
theorem reversedSerNum_length (b : Bytes) : (reversedSerNum b).length = b.length :=
  (reversedSerNum_rounds b b.length (Nat.le_refl _)).1

/-- The loop of `pfxExport` computes the reverse of the serial. -/
theorem reversedSerNum_eq_reverse (b : Bytes) : reversedSerNum b = b.reverse := by
  apply List.ext_getElem?
  intro j
  by_cases hj : j < b.length
  · rw [reversedSerNum_getElem? b j hj, List.getElem?_reverse hj]
  · have h1 : (reversedSerNum b).length ≤ j := by rw [reversedSerNum_length]; omega
    have h2 : b.reverse.length ≤ j := by rw [List.length_reverse]; omega
    rw [List.getElem?_eq_none h1, List.getElem?_eq_none h2]

/-- The certificate lookup of `pfxExport` is made with the reverse of the bytes
that the hex decoder returns. -/
theorem pfxExport_lookup_serial (B : Backend) (m : CertificateStore)
    (issuer serial password : String) (b : Bytes)
    (hb : B.hexToBinary (tmpSerial serial) = some b) :
    pfxExport B m issuer serial password =
      match pfxExportLookup B m.store issuer b.reverse with
      | .error e => (.error e, m)
      | .ok certificateCtx => pfxExportStage B m certificateCtx password := by
  simp only [pfxExport, hb, reversedSerNum_eq_reverse]

/-- C11. Serial byte reversal in `pfxExport`: for every decoded serial `b` of
length `n`, the empty one included, the serial number used for the certificate
lookup has length `n`, its byte at every index `i < n` is the byte of `b` at
index `n - 1 - i`, it is the reverse of `b`, and reversing it again gives `b`. -/
theorem reversedSerNum_is_reverse (b : Bytes) :
    (reversedSerNum b).length = b.length ∧
    (∀ (i : Nat) (hi : i < b.length),
      (reversedSerNum b).get ⟨i, by rw [reversedSerNum_length]; exact hi⟩ =
        b.get ⟨b.length - 1 - i, by omega⟩) ∧
    reversedSerNum b = b.reverse ∧
    reversedSerNum (reversedSerNum b) = b := by
  refine ⟨reversedSerNum_length b, fun i hi => ?_, reversedSerNum_eq_reverse b, ?_⟩
  · have h := reversedSerNum_getElem? b i hi
    have h1 : i < (reversedSerNum b).length := by rw [reversedSerNum_length]; exact hi
    have h2 : b.length - 1 - i < b.length := by omega
    rw [List.getElem?_eq_getElem h1, List.getElem?_eq_getElem h2] at h
    simpa using h
  · rw [reversedSerNum_eq_reverse, reversedSerNum_eq_reverse, List.reverse_reverse]

/-- An instance of C11: the serial `01 1A 2B` is looked up as `2B 1A 01`, whose
byte at index 0 is the byte at index 2 of the serial; the empty serial stays
empty. -/
theorem reversedSerNum_is_reverse_witness :
    reversedSerNum [0x01, 0x1A, 0x2B] = [0x2B, 0x1A, 0x01] ∧
    reversedSerNum [] = [] ∧
    (reversedSerNum [0x01, 0x1A, 0x2B]).get ⟨0, by decide⟩ =
      ([0x01, 0x1A, 0x2B] : Bytes).get ⟨3 - 1 - 0, by decide⟩ ∧
    reversedSerNum (reversedSerNum [0x01, 0x1A, 0x2B]) = [0x01, 0x1A, 0x2B] :=
  ⟨by decide, by decide,
    (reversedSerNum_is_reverse [0x01, 0x1A, 0x2B]).2.1 0 (by decide),
    (reversedSerNum_is_reverse [0x01, 0x1A, 0x2B]).2.2.2⟩

end CryptoCmd
